import Mathlib

/-!
Shallow embedding of two CFG rewrite passes of a decompiler backend:
the cross-jump reverter (`cross_jump_reverter.py`, block duplication driven
by residual gotos) and the lowered switch-case simplifier
(`new_lowered_switch_simplifier.py`, switch-ladder recognition, collapse
and restore), together with proofs about the claims of the specification.

Python integers are modelled as `Int`; addresses are `Int` as well.
`networkx.DiGraph` is modelled as a list of nodes plus a list of edges,
both kept in insertion order, which matches networkx's deterministic
iteration order.  Graph nodes are AIL blocks; Python object identity is
modelled by value equality, which is faithful because live blocks are
pairwise distinct as values (distinct `(addr, idx)` or distinct contents).
Operations that can raise in Python (`remove_edge` of a missing edge,
indexing an empty list, ...) return `Option`, with `none` for the raised
exception.
-/

namespace Angr

/-- An AIL-like expression.  `var` is any atom carrying a `variable`
attribute (e.g. a register); `const`, `binop`, `unop` and `convert`
mirror `Const`, `BinaryOp`, `UnaryOp` and `Convert`. -/
inductive Expr where
  | const (value : Int) (bits : Nat)
  | var (id : Nat)
  | binop (op : String) (left right : Expr)
  | unop (op : String) (arg : Expr)
  | convert (fromBits toBits : Nat) (arg : Expr)
deriving DecidableEq, Repr

/-- An AIL-like statement.  `condJump` mirrors `ConditionalJump` (with its
condition and the two branch-target expressions), `jump` mirrors `Jump`,
`label` mirrors `Label`, `assign` mirrors `Assignment`, `switchHead`
mirrors `IncompleteSwitchCaseHeadStatement` (its payload is threaded
alongside the graph rather than stored inside the statement), and `other`
stands for any other statement kind. -/
inductive Stmt where
  | label
  | assign
  | condJump (cond : Expr) (trueTgt falseTgt : Expr)
  | jump (tgt : Expr)
  | switchHead
  | other
deriving DecidableEq, Repr

/-- An AIL basic block: start address, optional disambiguating index
(non-`none` only for duplicated copies), ordered statements. -/
structure Block where
  addr : Int
  idx : Option Nat
  statements : List Stmt
deriving DecidableEq, Repr

/-- A directed control-flow graph over blocks, nodes and edges in
insertion order (networkx `DiGraph` model). -/
structure Graph where
  nodes : List Block
  edges : List (Block × Block)
deriving DecidableEq, Repr

def Graph.successors (g : Graph) (u : Block) : List Block :=
  (g.edges.filter (fun e => decide (e.1 = u))).map (fun e => e.2)

def Graph.predecessors (g : Graph) (u : Block) : List Block :=
  (g.edges.filter (fun e => decide (e.2 = u))).map (fun e => e.1)

def Graph.outDegree (g : Graph) (u : Block) : Nat :=
  (g.successors u).length

def Graph.inDegree (g : Graph) (u : Block) : Nat :=
  (g.predecessors u).length

def Graph.addNode (g : Graph) (u : Block) : Graph :=
  if u ∈ g.nodes then g else { g with nodes := g.nodes ++ [u] }

/-- `networkx.DiGraph.add_edge`: missing endpoints are added as nodes,
an already-present edge is left alone. -/
def Graph.addEdge (g : Graph) (u v : Block) : Graph :=
  let g' := (g.addNode u).addNode v
  if (u, v) ∈ g'.edges then g' else { g' with edges := g'.edges ++ [(u, v)] }

/-- `networkx.DiGraph.remove_edge`; removing a missing edge raises, which
is modelled as `none`. -/
def Graph.removeEdge (g : Graph) (u v : Block) : Option Graph :=
  if (u, v) ∈ g.edges then
    some { g with edges := g.edges.filter (fun e => !decide (e = (u, v))) }
  else
    none

/-- `networkx.DiGraph.remove_node` (used by the sources only on nodes
known to be present): drops the node and all incident edges. -/
def Graph.removeNode (g : Graph) (u : Block) : Graph :=
  { nodes := g.nodes.filter (fun n => !decide (n = u)),
    edges := g.edges.filter (fun e => !decide (e.1 = u) && !decide (e.2 = u)) }

/-- A residual goto as reported by the structuring oracle: attributed to
the block whose address is `blockAddr`, jumping to `targetAddr`. -/
structure Goto where
  blockAddr : Int
  targetAddr : Int
deriving DecidableEq, Repr

/-- Modelled from the spec: `GotoManager.gotos_in_block` (the goto
manager itself is outside the given sources).  A `Goto` is "attributed to
the Block containing it", so the lookup filters the goto set by the
block's address. -/
def gotosInBlock (gotos : List Goto) (b : Block) : List Goto :=
  gotos.filter (fun gt => decide (gt.blockAddr = b.addr))

/-! ## Cross-jump reverter (`cross_jump_reverter.py`) -/

namespace CrossJumpReverter

/-- The goto-target resolution of `_analyze_core` (lines 153-157): the
first direct successor of `n` whose address equals the goto's target
address, if any. -/
def resolveGotoTarget (g : Graph) (n : Block) (targetAddr : Int) : Option Block :=
  (g.successors n).find? (fun s => decide (s.addr = targetAddr))

/-- The collection phase of `_analyze_core` (lines 144-166): every node
with exactly one attributed goto whose target resolves to a direct
successor with out-degree 1 is mapped to that successor, in node order
(`to_update` is a dict in insertion order). -/
def collectToUpdate (g : Graph) (gotos : List Goto) : List (Block × Block) :=
  g.nodes.filterMap (fun n =>
    match gotosInBlock gotos n with
    | [gt] =>
      match resolveGotoTarget g n gt.targetAddr with
      | none => none
      | some tgt => if g.outDegree tgt = 1 then some (n, tgt) else none
    | _ => none)

/-- The mutation phase of `_analyze_core` (lines 171-188), threading the
duplicate-index counter.  For each `(node, goto_node)` pair: deep-copy the
goto node with a fresh index, replace the edge `node → goto_node` by
`node → copy`, link the copy to the goto node's first remaining successor,
and remove the goto node once its in-degree reaches zero.  `none` models a
raised exception (missing edge / empty successor list). -/
def applyUpdates (idx : Nat) (g : Graph) : List (Block × Block) → Option (Graph × Nat)
  | [] => some (g, idx)
  | (n, gotoNode) :: rest =>
    match g.removeEdge n gotoNode with
    | none => none
    | some g1 =>
      let cp : Block := { gotoNode with idx := some idx }
      let g2 := g1.addEdge n cp
      match (g2.successors gotoNode).head? with
      | none => none
      | some suc =>
        let g3 := g2.addEdge cp suc
        let g4 := if g3.inDegree gotoNode = 0 then g3.removeNode gotoNode else g3
        applyUpdates (idx + 1) g4 rest

/-- `CrossJumpReverter._analyze_core`: returns whether any edit was made,
the updated graph, and the updated duplicate-index counter. -/
def analyzeCore (idx : Nat) (gotos : List Goto) (g : Graph) :
    Option (Bool × Graph × Nat) :=
  match collectToUpdate g gotos with
  | [] => some (false, g, idx)
  | us =>
    match applyUpdates idx g us with
    | none => none
    | some (g', idx') => some (true, g', idx')

/-- The mutable state of `CrossJumpReverter._analyze`:  the working copy
(`self.graph_copy`, `none` after a failure recovery from a run with no
snapshot), the rollback snapshot (`self.last_graph`), whether any round
edited the graph (`graph_updated`), the first measured goto set
(`self.initial_gotos`), the goto set of the most recent successful oracle
call (`self.goto_manager`, `none` when the last call failed), and the
duplicate-index counter. -/
structure CJState where
  graphCopy : Option Graph
  lastGraph : Option Graph
  updated : Bool
  initial : Option (List Goto)
  mgr : Option (List Goto)
  idx : Nat
deriving Repr

/-- The round loop of `CrossJumpReverter._analyze` (lines 90-105).  The
structuring oracle is abstracted as a function from graphs to `none`
(structuring failed) or the measured goto set; `_structure_graph` resets
`goto_manager`, records `initial_gotos` on the first success, and reports
whether any gotos remain.  The fuel is `max_level`.  The outer `none`
models a Python exception escaping `_analyze_core`. -/
def cjLoop (oracle : Graph → Option (List Goto)) :
    Nat → CJState → Option CJState
  | 0, st => some st
  | fuel + 1, st =>
    match st.graphCopy with
    | none => none
    | some g =>
      match oracle g with
      | none => some { st with graphCopy := st.lastGraph, mgr := none }
      | some gs =>
        let st := { st with
          mgr := some gs,
          initial := match st.initial with | none => some gs | some i => some i }
        if gs.isEmpty then some st
        else
          let st := { st with lastGraph := some g }
          match analyzeCore st.idx gs g with
          | none => none
          | some (r, g', idx') =>
            let st := { st with graphCopy := some g', idx := idx' }
            if r then cjLoop oracle fuel { st with updated := true }
            else some st

/-- The acceptance check of `CrossJumpReverter._analyze` (lines 107-110):
the edited graph is committed as `out_graph` only when at least one round
edited the graph, the working copy is present, the final oracle
measurement exists, and `not (len(initial_gotos) < len(goto_manager.gotos))`. -/
def cjOutput (st : CJState) : Option Graph :=
  if st.updated then
    match st.graphCopy with
    | none => none
    | some g =>
      match st.mgr, st.initial with
      | some m, some i => if ¬ i.length < m.length then some g else none
      | _, _ => none
  else none

/-- `CrossJumpReverter._analyze`: run the round loop from the working copy
of the caller's graph and apply the acceptance check.  Returns the final
state together with the pass output (`none` = the caller's graph is
retained unchanged). -/
def analyze (oracle : Graph → Option (List Goto)) (maxLevel : Nat)
    (g0 : Graph) (idxStart : Nat) : Option (CJState × Option Graph) :=
  match cjLoop oracle maxLevel ⟨some g0, none, false, none, none, idxStart⟩ with
  | none => none
  | some st => some (st, cjOutput st)

/-- Run finished and an output graph was committed (`out_graph` set). -/
def committedOf (r : Option (CJState × Option Graph)) : Bool :=
  match r with
  | some (_, some _) => true
  | _ => false

/-- Whether some duplication round edited the graph (`graph_updated`). -/
def updatedOf (r : Option (CJState × Option Graph)) : Bool :=
  match r with
  | some (st, _) => st.updated
  | none => false

/-- Goto count of the last successful oracle measurement. -/
def finalCountOf (r : Option (CJState × Option Graph)) : Option Nat :=
  match r with
  | some (st, _) => st.mgr.map List.length
  | none => none

/-- Goto count of the very first oracle measurement. -/
def initialCountOf (r : Option (CJState × Option Graph)) : Option Nat :=
  match r with
  | some (st, _) => st.initial.map List.length
  | none => none

/-- Invariant of the round loop: once a round has edited the graph, the
working copy, the rollback snapshot and the initial goto measurement all
exist. -/
def CJInv (st : CJState) : Prop :=
  st.updated = true →
    st.graphCopy.isSome ∧ st.lastGraph.isSome ∧ st.initial.isSome

theorem cjLoop_inv (oracle : Graph → Option (List Goto)) (fuel : Nat)
    (st st' : CJState) (h : cjLoop oracle fuel st = some st')
    (hinv : CJInv st) : CJInv st' := by
  induction fuel generalizing st with
  | zero =>
    simp only [cjLoop, Option.some.injEq] at h
    subst h
    exact hinv
  | succ n ih =>
    simp only [cjLoop] at h
    split at h
    · exact absurd h (by simp)
    next g hg =>
      split at h
      next horc =>
        simp only [Option.some.injEq] at h
        subst h
        intro hu
        rcases hinv hu with ⟨_, hl, hi⟩
        exact ⟨hl, hl, hi⟩
      next gs horc =>
        split at h
        next hempty =>
          simp only [Option.some.injEq] at h
          subst h
          intro hu
          refine ⟨by simp [hg], (hinv hu).2.1, ?_⟩
          cases st.initial <;> simp
        next hempty =>
          split at h
          next hac => exact absurd h (by simp)
          next r g' idx' hac =>
            split at h
            next hr =>
              refine ih _ h ?_
              intro _
              refine ⟨by simp, by simp, ?_⟩
              cases st.initial <;> simp
            next hr =>
              simp only [Option.some.injEq] at h
              subst h
              intro hu
              refine ⟨by simp, by simp, ?_⟩
              cases st.initial <;> simp

/-- Unpacking `analyze`: a successful run is a successful loop run plus
the acceptance check. -/
theorem analyze_eq (oracle : Graph → Option (List Goto)) (maxLevel : Nat)
    (g0 : Graph) (idxStart : Nat) (st : CJState) (out : Option Graph)
    (h : analyze oracle maxLevel g0 idxStart = some (st, out)) :
    cjLoop oracle maxLevel ⟨some g0, none, false, none, none, idxStart⟩ =
      some st ∧ out = cjOutput st := by
  simp only [analyze] at h
  split at h
  · exact absurd h (by simp)
  · rename_i st0 heq
    simp only [Option.some.injEq, Prod.mk.injEq] at h
    obtain ⟨h1, h2⟩ := h
    subst h1
    exact ⟨heq, h2.symm⟩

/-- Claim C1 (amended): for every run of the cross-jump reverter in which
at least one duplication round edited the graph, the edited graph is
committed as the pass output if and only if the final oracle measurement
exists (the last structuring call succeeded) and its goto count is less
than **or equal to** the very first measured goto count; otherwise the
caller's original graph is retained (no output). -/
theorem commit_iff_final_le_initial (oracle : Graph → Option (List Goto))
    (maxLevel : Nat) (g0 : Graph) (idxStart : Nat) (st : CJState)
    (out : Option Graph)
    (h : analyze oracle maxLevel g0 idxStart = some (st, out))
    (hupd : st.updated = true) :
    out.isSome = true ↔
      ∃ m i, st.mgr = some m ∧ st.initial = some i ∧ m.length ≤ i.length := by
  obtain ⟨hloop, hout⟩ := analyze_eq oracle maxLevel g0 idxStart st out h
  have hinv : CJInv st := by
    refine cjLoop_inv oracle maxLevel _ st hloop ?_
    intro hfalse
    simp at hfalse
  rcases hinv hupd with ⟨hgc, _, hini⟩
  obtain ⟨g, hg⟩ := Option.isSome_iff_exists.mp hgc
  obtain ⟨i, hi⟩ := Option.isSome_iff_exists.mp hini
  rw [hout]
  simp only [cjOutput, hupd, if_true, hg, hi]
  rcases hm : st.mgr with _ | m
  · simp
  · simp only [Option.some.injEq]
    by_cases hlt : i.length < m.length
    · rw [if_neg (by simpa using hlt)]
      refine iff_of_false (by simp) ?_
      rintro ⟨m', i', hm', hi', hle⟩
      subst hm'
      subst hi'
      omega
    · rw [if_pos hlt]
      refine iff_of_true (by simp) ⟨m, i, rfl, rfl, Nat.not_lt.mp hlt⟩

/-- Concrete input for the C1 counterexample: a three-block chain
`P → B → C` where the oracle always reports one goto in `P` targeting
`B`'s address regardless of the graph. -/
def c1G0 : Graph :=
  ⟨[⟨10, none, []⟩, ⟨20, none, []⟩, ⟨30, none, []⟩],
   [(⟨10, none, []⟩, ⟨20, none, []⟩), (⟨20, none, []⟩, ⟨30, none, []⟩)]⟩

def c1Oracle : Graph → Option (List Goto) := fun _ => some [⟨10, 20⟩]

/-- Claim C1 counterexample: with a constant one-goto oracle and
`max_level = 2`, both rounds edit the graph, the final measured goto count
equals the initial count (1 = 1, not strictly less), and the edited graph
is nevertheless committed as the pass output — refuting "committed if and
only if the final count is strictly less than the first". -/
theorem c1_strict_decrease_counterexample :
    committedOf (analyze c1Oracle 2 c1G0 0) = true ∧
    updatedOf (analyze c1Oracle 2 c1G0 0) = true ∧
    finalCountOf (analyze c1Oracle 2 c1G0 0) = some 1 ∧
    initialCountOf (analyze c1Oracle 2 c1G0 0) = some 1 := by
  refine ⟨rfl, rfl, rfl, rfl⟩

/-- Witness for `commit_iff_final_le_initial` at `max_level = 1` on the
same input: one round edits the graph; the run commits, and the final
count (1) is ≤ the initial count (1). -/
def c1wGraph : Graph :=
  ⟨[⟨10, none, []⟩, ⟨30, none, []⟩, ⟨20, some 0, []⟩],
   [(⟨10, none, []⟩, ⟨20, some 0, []⟩), (⟨20, some 0, []⟩, ⟨30, none, []⟩)]⟩

def c1wState : CJState :=
  ⟨some c1wGraph, some c1G0, true, some [⟨10, 20⟩], some [⟨10, 20⟩], 1⟩

theorem commit_iff_final_le_initial_witness :
    (some c1wGraph : Option Graph).isSome = true ↔
      ∃ m i, c1wState.mgr = some m ∧ c1wState.initial = some i ∧
        m.length ≤ i.length :=
  commit_iff_final_le_initial c1Oracle 1 c1G0 0 c1wState (some c1wGraph)
    rfl rfl

/-- Claim C3 (amended): when the oracle fails (structuring failure) on
some round — in particular after earlier rounds already edited the graph —
the pass stops with its working copy reverted to the snapshot taken before
the most recent edit round, and commits **no** output: the caller's
original graph is retained, and the pre-failure edited graph is
discarded rather than committed. -/
theorem oracle_failure_discards_output (oracle : Graph → Option (List Goto))
    (maxLevel : Nat) (g0 : Graph) (idxStart : Nat) (st : CJState)
    (out : Option Graph)
    (h : analyze oracle maxLevel g0 idxStart = some (st, out))
    (hfail : st.mgr = none) : out = none := by
  obtain ⟨_, hout⟩ := analyze_eq oracle maxLevel g0 idxStart st out h
  rw [hout]
  simp only [cjOutput, hfail]
  by_cases hu : st.updated = true
  · rw [if_pos hu]
    rcases st.graphCopy with _ | g <;> rfl
  · rw [if_neg hu]

/-- Oracle for the C3 counterexample: succeeds (one goto in `P` targeting
`B`) while the original block `B` is still in the graph, fails once `B`
has been replaced by a duplicate. -/
def c3Oracle : Graph → Option (List Goto) := fun g =>
  if (⟨20, none, []⟩ : Block) ∈ g.nodes then some [⟨10, 20⟩] else none

/-- Claim C3 counterexample: round 1 succeeds and edits the graph
(duplicating `B`), round 2's oracle call fails; the run terminates with
`graph_updated` true but commits nothing — the pre-failure edited graph is
**not** kept as the pass output, refuting the claim. -/
theorem c3_failure_keeps_best_counterexample :
    (analyze c3Oracle 10 c1G0 0).isSome = true ∧
    updatedOf (analyze c3Oracle 10 c1G0 0) = true ∧
    committedOf (analyze c3Oracle 10 c1G0 0) = false := by
  refine ⟨rfl, rfl, rfl⟩

/-- Witness for `oracle_failure_discards_output`: the concrete C3 run ends
with a failed final measurement and indeed commits no output. -/
def c3wState : CJState :=
  ⟨some c1G0, some c1G0, true, some [⟨10, 20⟩], none, 1⟩

theorem oracle_failure_discards_output_witness : (none : Option Graph) = none :=
  oracle_failure_discards_output c3Oracle 10 c1G0 0 c3wState none
    rfl rfl

set_option maxHeartbeats 1000000 in
/-- Claim C4: for a graph with blocks `P1, P2, B, C` where `B` has exactly
the two predecessors `P1, P2`, each reaching `B` only via a single goto
attributed to it, and `B` has exactly one successor `C`, one duplication
round (`_analyze_core`) produces two distinct duplicates of `B` — one per
predecessor, each with a fresh disambiguating index — each with an edge to
`C`, and removes the original `B` from the graph because its in-degree
dropped to zero. -/
theorem c4_two_goto_predecessors_duplication
    (aP1 aP2 aB aC : Int) (sP1 sP2 sB sC : List Stmt) (i0 : Nat)
    (h12 : aP1 ≠ aP2) (h1B : aP1 ≠ aB) (h2B : aP2 ≠ aB)
    (h1C : aP1 ≠ aC) (h2C : aP2 ≠ aC) (hBC : aB ≠ aC) :
    analyzeCore i0 [⟨aP1, aB⟩, ⟨aP2, aB⟩]
      ⟨[⟨aP1, none, sP1⟩, ⟨aP2, none, sP2⟩, ⟨aB, none, sB⟩, ⟨aC, none, sC⟩],
       [(⟨aP1, none, sP1⟩, ⟨aB, none, sB⟩),
        (⟨aP2, none, sP2⟩, ⟨aB, none, sB⟩),
        (⟨aB, none, sB⟩, ⟨aC, none, sC⟩)]⟩ =
      some (true,
        ⟨[⟨aP1, none, sP1⟩, ⟨aP2, none, sP2⟩, ⟨aC, none, sC⟩,
          ⟨aB, some i0, sB⟩, ⟨aB, some (i0 + 1), sB⟩],
         [(⟨aP1, none, sP1⟩, ⟨aB, some i0, sB⟩),
          (⟨aB, some i0, sB⟩, ⟨aC, none, sC⟩),
          (⟨aP2, none, sP2⟩, ⟨aB, some (i0 + 1), sB⟩),
          (⟨aB, some (i0 + 1), sB⟩, ⟨aC, none, sC⟩)]⟩, i0 + 2) ∧
    (⟨aB, some i0, sB⟩ : Block) ≠ ⟨aB, some (i0 + 1), sB⟩ := by
  have hne : i0 ≠ i0 + 1 := Nat.ne_of_lt (Nat.lt_succ_self i0)
  refine ⟨?_, by simp [Block.mk.injEq, hne]⟩
  set P1 : Block := ⟨aP1, none, sP1⟩ with hP1
  set P2 : Block := ⟨aP2, none, sP2⟩ with hP2
  set B : Block := ⟨aB, none, sB⟩ with hB
  set C : Block := ⟨aC, none, sC⟩ with hC
  set cp1 : Block := ⟨aB, some i0, sB⟩ with hcp1
  set cp2 : Block := ⟨aB, some (i0 + 1), sB⟩ with hcp2
  have hcollect : collectToUpdate
      ⟨[P1, P2, B, C], [(P1, B), (P2, B), (B, C)]⟩ [⟨aP1, aB⟩, ⟨aP2, aB⟩] =
      [(P1, B), (P2, B)] := by
    simp [collectToUpdate, gotosInBlock, resolveGotoTarget, Graph.outDegree,
      Graph.successors, List.filterMap, List.filter, List.find?, List.map,
      hP1, hP2, hB, hC, h12, h1B, h2B, h1C, h2C, hBC, Ne.symm h12,
      Ne.symm h1B, Ne.symm h2B, Ne.symm h1C, Ne.symm h2C, Ne.symm hBC]
  have h1 : Graph.removeEdge ⟨[P1, P2, B, C], [(P1, B), (P2, B), (B, C)]⟩ P1 B =
      some ⟨[P1, P2, B, C], [(P2, B), (B, C)]⟩ := by
    simp [Graph.removeEdge, List.filter, hP1, hP2, hB, hC,
      Ne.symm h12, Ne.symm h1B]
  have h2 : Graph.addEdge ⟨[P1, P2, B, C], [(P2, B), (B, C)]⟩ P1 cp1 =
      ⟨[P1, P2, B, C, cp1], [(P2, B), (B, C), (P1, cp1)]⟩ := by
    simp [Graph.addEdge, Graph.addNode, hP1, hP2, hB, hC, hcp1,
      h12, h1B, Ne.symm h12, Ne.symm h1B]
  have h3 : (Graph.successors
      ⟨[P1, P2, B, C, cp1], [(P2, B), (B, C), (P1, cp1)]⟩ B).head? = some C := by
    simp [Graph.successors, List.filter, hP1, hP2, hB, hC, hcp1, h1B, h2B]
  have h4 : Graph.addEdge ⟨[P1, P2, B, C, cp1], [(P2, B), (B, C), (P1, cp1)]⟩
      cp1 C = ⟨[P1, P2, B, C, cp1], [(P2, B), (B, C), (P1, cp1), (cp1, C)]⟩ := by
    simp [Graph.addEdge, Graph.addNode, hP1, hP2, hB, hC, hcp1, hBC,
      Ne.symm h1C]
  have h5 : Graph.inDegree
      ⟨[P1, P2, B, C, cp1], [(P2, B), (B, C), (P1, cp1), (cp1, C)]⟩ B = 1 := by
    simp [Graph.inDegree, Graph.predecessors, List.filter, hP1, hP2, hB, hC,
      hcp1, Ne.symm hBC]
  have h6 : Graph.removeEdge
      ⟨[P1, P2, B, C, cp1], [(P2, B), (B, C), (P1, cp1), (cp1, C)]⟩ P2 B =
      some ⟨[P1, P2, B, C, cp1], [(B, C), (P1, cp1), (cp1, C)]⟩ := by
    simp [Graph.removeEdge, List.filter, hP1, hP2, hB, hC, hcp1,
      Ne.symm h2B, h12, Ne.symm h12]
  have h7 : Graph.addEdge ⟨[P1, P2, B, C, cp1], [(B, C), (P1, cp1), (cp1, C)]⟩
      P2 cp2 = ⟨[P1, P2, B, C, cp1, cp2],
        [(B, C), (P1, cp1), (cp1, C), (P2, cp2)]⟩ := by
    simp [Graph.addEdge, Graph.addNode, hP1, hP2, hB, hC, hcp1, hcp2,
      h12, h2B, Ne.symm h12, Ne.symm h2B, hne]
  have h8 : (Graph.successors ⟨[P1, P2, B, C, cp1, cp2],
      [(B, C), (P1, cp1), (cp1, C), (P2, cp2)]⟩ B).head? = some C := by
    simp [Graph.successors, List.filter, hP1, hP2, hB, hC, hcp1, hcp2,
      h1B, h2B]
  have h9 : Graph.addEdge ⟨[P1, P2, B, C, cp1, cp2],
      [(B, C), (P1, cp1), (cp1, C), (P2, cp2)]⟩ cp2 C =
      ⟨[P1, P2, B, C, cp1, cp2],
       [(B, C), (P1, cp1), (cp1, C), (P2, cp2), (cp2, C)]⟩ := by
    simp [Graph.addEdge, Graph.addNode, hP1, hP2, hB, hC, hcp1, hcp2, hBC,
      Ne.symm h2C, hne]
  have h10 : Graph.inDegree ⟨[P1, P2, B, C, cp1, cp2],
      [(B, C), (P1, cp1), (cp1, C), (P2, cp2), (cp2, C)]⟩ B = 0 := by
    simp [Graph.inDegree, Graph.predecessors, List.filter, hP1, hP2, hB, hC,
      hcp1, hcp2, Ne.symm hBC]
  have h11 : Graph.removeNode ⟨[P1, P2, B, C, cp1, cp2],
      [(B, C), (P1, cp1), (cp1, C), (P2, cp2), (cp2, C)]⟩ B =
      ⟨[P1, P2, C, cp1, cp2],
       [(P1, cp1), (cp1, C), (P2, cp2), (cp2, C)]⟩ := by
    simp [Graph.removeNode, List.filter, hP1, hP2, hB, hC, hcp1, hcp2,
      h1B, h2B, Ne.symm hBC, hBC]
  simp only [analyzeCore, hcollect]
  simp only [applyUpdates, h1]
  simp only [hB, hcp1]
  simp only [← hB, ← hcp1, h2, h3]
  simp only [h4, h5]
  norm_num
  simp only [h6]
  simp only [hB, hcp2]
  simp only [← hB, ← hcp2, h7, h8]
  simp only [h9, h10]
  norm_num [h11, applyUpdates]

/-- Witness for `c4_two_goto_predecessors_duplication` at concrete
addresses 10, 20, 30, 40. -/
theorem c4_two_goto_predecessors_duplication_witness :
    analyzeCore 0 [⟨10, 30⟩, ⟨20, 30⟩]
      ⟨[⟨10, none, []⟩, ⟨20, none, []⟩, ⟨30, none, []⟩, ⟨40, none, []⟩],
       [(⟨10, none, []⟩, ⟨30, none, []⟩),
        (⟨20, none, []⟩, ⟨30, none, []⟩),
        (⟨30, none, []⟩, ⟨40, none, []⟩)]⟩ =
      some (true,
        ⟨[⟨10, none, []⟩, ⟨20, none, []⟩, ⟨40, none, []⟩,
          ⟨30, some 0, []⟩, ⟨30, some 1, []⟩],
         [(⟨10, none, []⟩, ⟨30, some 0, []⟩),
          (⟨30, some 0, []⟩, ⟨40, none, []⟩),
          (⟨20, none, []⟩, ⟨30, some 1, []⟩),
          (⟨30, some 1, []⟩, ⟨40, none, []⟩)]⟩, 0 + 2) ∧
    (⟨30, some 0, []⟩ : Block) ≠ ⟨30, some 1, []⟩ :=
  c4_two_goto_predecessors_duplication 10 20 30 40 [] [] [] [] 0
    (by decide) (by decide) (by decide) (by decide) (by decide) (by decide)

end CrossJumpReverter

/-! ## Lowered switch-case simplifier (`new_lowered_switch_simplifier.py`) -/

namespace LoweredSwitchSimplifier

/-- Modelled from the spec: `first_nonlabel_statement` (from
`decompiler/utils`, outside the given sources) returns the first
statement of a block that is not a `Label`.  Since the sources compare
the result by Python object identity (`is`) against `statements[-1]`,
the model works with the index of that statement instead. -/
def firstNonlabelIdx (b : Block) : Option Nat :=
  b.statements.findIdx? (fun s => !decide (s = Stmt.label))

/-- A token contributed to the stable expression hash.
`StableVarExprHasher` walks an expression and appends: the variable for
any expression carrying a `variable` attribute, the operation for
`BinaryOp`/`UnaryOp`, `(value, bits)` for `Const`, and `to_bits` for
`Convert`; the hash of the token tuple is modelled by the token list
itself. -/
inductive HTok where
  | varTok (id : Nat)
  | opTok (op : String)
  | constTok (value : Int) (bits : Nat)
  | convTok (toBits : Nat)
deriving DecidableEq, Repr

/-- `StableVarExprHasher`: pre-order walk collecting hash tokens. -/
def stableHash : Expr → List HTok
  | .var i => [.varTok i]
  | .const v b => [.constTok v b]
  | .binop op l r => .opTok op :: (stableHash l ++ stableHash r)
  | .unop op a => .opTok op :: stableHash a
  | .convert _ toBits a => .convTok toBits :: stableHash a

/-- The recognized comparison tuple
`(variable_hash, op, expr, value, target, next_node_addr)` returned by the
three `_find_switch_variable_comparison_type_*` classifiers. -/
structure CompInfo where
  vhash : List HTok
  op : String
  expr : Expr
  value : Int
  target : Int
  nextAddr : Int
deriving DecidableEq, Repr

/-- `_find_switch_variable_comparison_type_a`: the last statement is a
two-way conditional jump with constant targets whose condition compares a
sub-expression (`CmpEQ`/`CmpNE`) against a constant, and it is *not* the
block's first non-label statement. -/
def findSwitchVariableComparisonTypeA (node : Block) : Option CompInfo :=
  match node.statements.getLast? with
  | none => none
  | some stmt =>
    if firstNonlabelIdx node = some (node.statements.length - 1) then none
    else
      match stmt with
      | .condJump cond (.const tv _) (.const fv _) =>
        match cond with
        | .binop op lhs (.const cv _) =>
          if op = "CmpEQ" then some ⟨stableHash lhs, "eq", lhs, cv, tv, fv⟩
          else if op = "CmpNE" then some ⟨stableHash lhs, "eq", lhs, cv, fv, tv⟩
          else none
        | _ => none
      | _ => none

/-- `_find_switch_variable_comparison_type_b`: like type a, but the
conditional jump is the block's only non-label statement. -/
def findSwitchVariableComparisonTypeB (node : Block) : Option CompInfo :=
  match node.statements.getLast? with
  | none => none
  | some stmt =>
    if firstNonlabelIdx node = some (node.statements.length - 1) then
      match stmt with
      | .condJump cond (.const tv _) (.const fv _) =>
        match cond with
        | .binop op lhs (.const cv _) =>
          if op = "CmpEQ" then some ⟨stableHash lhs, "eq", lhs, cv, tv, fv⟩
          else if op = "CmpNE" then some ⟨stableHash lhs, "eq", lhs, cv, fv, tv⟩
          else none
        | _ => none
      | _ => none
    else none

/-- `_find_switch_variable_comparison_type_c`: the block's only non-label
statement is a conditional jump on an ordering comparison
(`CmpGT`/`CmpGE`/`CmpLT`/`CmpLE`) against a constant, with distinct
constant targets; normalized to a `(value, greater-target,
lesser-or-equal-target)` tuple. -/
def findSwitchVariableComparisonTypeC (node : Block) : Option CompInfo :=
  match node.statements.getLast? with
  | none => none
  | some stmt =>
    if firstNonlabelIdx node = some (node.statements.length - 1) then
      match stmt with
      | .condJump cond (.const tv _) (.const fv _) =>
        match cond with
        | .binop op lhs (.const cv _) =>
          if tv = fv then none
          else if op = "CmpGT" then some ⟨stableHash lhs, "gt", lhs, cv, tv, fv⟩
          else if op = "CmpGE" then some ⟨stableHash lhs, "gt", lhs, cv + 1, tv, fv⟩
          else if op = "CmpLT" then some ⟨stableHash lhs, "gt", lhs, cv - 1, fv, tv⟩
          else if op = "CmpLE" then some ⟨stableHash lhs, "gt", lhs, cv, fv, tv⟩
          else none
        | _ => none
      | _ => none
    else none

/-- Branch semantics of an AIL ordering `ConditionalJump`: the address of
the target taken when the compared sub-expression evaluates to `x` and
the constant operand is `c`. -/
def condJumpTakenTarget (op : String) (x c : Int) (tv fv : Int) : Option Int :=
  if op = "CmpGT" then some (if x > c then tv else fv)
  else if op = "CmpGE" then some (if x ≥ c then tv else fv)
  else if op = "CmpLT" then some (if x < c then tv else fv)
  else if op = "CmpLE" then some (if x ≤ c then tv else fv)
  else none

/-- A Shape C block whose condition is `var1 >= 5`, with true target 256
and false target 512: the failing input for claim C5. -/
def c5GeBlock : Block :=
  ⟨0, none, [.condJump (.binop "CmpGE" (.var 1) (.const 5 32))
    (.const 256 64) (.const 512 64)]⟩

/-- Claim C5 (code bug): on a Shape C block `var1 >= 5 ? 256 : 512` the
classifier returns the normalized value `6` (it adds 1 to the constant,
line 515, where matching the claimed "take the greater-target exactly when
the value exceeds the normalized constant" semantics requires subtracting
1): at `x = 5` the original branch takes the greater-target 256, while the
normalized semantics `x > 6` selects the lesser-or-equal-target 512. -/
theorem c5_ge_normalization_diverges :
    findSwitchVariableComparisonTypeC c5GeBlock =
      some ⟨[.varTok 1], "gt", .var 1, 6, 256, 512⟩ ∧
    condJumpTakenTarget "CmpGE" 5 5 256 512 = some 256 ∧
    (if (5 : Int) > 6 then (256 : Int) else 512) = 512 := by
  refine ⟨rfl, rfl, rfl⟩

/-- The value carried by a `Case`: an integer or the string sentinel
`"default"`. -/
inductive CVal where
  | int (v : Int)
  | dflt
deriving DecidableEq, Repr

/-- `Case`: one arm of a recognized switch ladder (class `Case`,
lines 28-74). -/
structure Case where
  original_node : Block
  node_type : Option String
  variable_hash : List HTok
  expr : Option Expr
  value : CVal
  target : Int
  next_addr : Option Int
deriving DecidableEq, Repr

/-- `Case.__eq__` (lines 59-69): compares `original_node`, `node_type`,
`variable_hash`, `value`, `target` and `next_addr` — and not `expr`. -/
def caseEq (a b : Case) : Bool :=
  decide (a.original_node = b.original_node) &&
  decide (a.node_type = b.node_type) &&
  decide (a.variable_hash = b.variable_hash) &&
  decide (a.value = b.value) &&
  decide (a.target = b.target) &&
  decide (a.next_addr = b.next_addr)

/-- `Case.__hash__` (lines 71-74): the hash of the tuple of the same six
fields (the constant `Case` class tag is dropped); the Python hash of the
tuple is modelled by the tuple itself. -/
def caseHash (a : Case) : Block × Option String × List HTok × CVal × Int × Option Int :=
  (a.original_node, a.node_type, a.variable_hash, a.value, a.target, a.next_addr)

def c7a : Case :=
  ⟨⟨0, none, []⟩, some "b", [.varTok 1], some (.var 1), .int 1, 100, some 200⟩

def c7b : Case := { c7a with expr := some (.var 2) }

/-- Claim C7 counterexample: two `Case` objects that differ in their
`expr` field (and hence do not have all fields matching, and are not the
same value) nevertheless compare equal under `Case.__eq__`, refuting
"equal iff **all** fields match". -/
theorem c7_expr_ignored_counterexample :
    caseEq c7a c7b = true ∧ c7a.expr ≠ c7b.expr ∧ c7a ≠ c7b := by
  refine ⟨rfl, by decide, by decide⟩

/-- Claim C7 (amended): two `Case` objects compare equal if and only if
all fields other than the compared expression match (originating
comparison block, shape tag, expression hash, value, jump target address
and next-comparison fallthrough address), and equal Cases have equal
hashes. -/
theorem case_eq_iff_fields_except_expr (a b : Case) :
    (caseEq a b = true ↔
      a.original_node = b.original_node ∧ a.node_type = b.node_type ∧
      a.variable_hash = b.variable_hash ∧ a.value = b.value ∧
      a.target = b.target ∧ a.next_addr = b.next_addr) ∧
    (caseEq a b = true → caseHash a = caseHash b) := by
  constructor
  · simp [caseEq, Bool.and_eq_true, decide_eq_true_eq, and_assoc]
  · intro h
    simp only [caseEq, Bool.and_eq_true, decide_eq_true_eq] at h
    obtain ⟨⟨⟨⟨⟨h1, h2⟩, h3⟩, h4⟩, h5⟩, h6⟩ := h
    simp [caseHash, h1, h2, h3, h4, h5, h6]

/-- Witness for `case_eq_iff_fields_except_expr`: the two concrete Cases
of the counterexample compare equal and indeed have equal hashes. -/
theorem case_eq_iff_fields_except_expr_witness : caseHash c7a = caseHash c7b :=
  (case_eq_iff_fields_except_expr c7a c7b).2 (by decide)

/-! ### Chain assembly (`_find_cascading_switch_variable_comparisons`) -/

/-- The comparison classification pass (lines 261-275): classify every
node, in the given traversal order, as type a, then b, then c; the result
is the ordered dict `variable_comparisons` mapping nodes to
`(comp_type, variable_hash, op, expr, value, target, next_addr)`.  The
quasi-topological node order produced by
`GraphUtils.quasi_topological_sort_nodes` (outside the given sources) is
taken as a parameter. -/
def buildComparisons (order : List Block) : List (Block × String × CompInfo) :=
  order.filterMap (fun node =>
    match findSwitchVariableComparisonTypeA node with
    | some r => some (node, "a", r)
    | none =>
      match findSwitchVariableComparisonTypeB node with
      | some r => some (node, "b", r)
      | none =>
        match findSwitchVariableComparisonTypeC node with
        | some r => some (node, "c", r)
        | none => none)

def compsFind (comps : List (Block × String × CompInfo)) (b : Block) :
    Option (String × CompInfo) :=
  match comps.find? (fun e => decide (e.1 = b)) with
  | none => none
  | some e => some e.2

/-- Deduplicate keeping the first occurrence (model of building a Python
set from a list and iterating it). -/
def dedupKeepFirst : List Int → List Int
  | [] => []
  | a :: rest => a :: (dedupKeepFirst rest).filter (fun x => !decide (x = a))

/-- Deduplicate blocks keeping the first occurrence
(`list(set(...))` on block lists). -/
def dedupBlocks : List Block → List Block
  | [] => []
  | b :: rest => b :: (dedupBlocks rest).filter (fun x => !decide (x = b))

/-- `xs` as a set equals `{a, b}` (the `succ_addrs != {gt_addr, le_addr}`
check, negated). -/
def sameAddrSet (xs : List Int) (a b : Int) : Bool :=
  xs.all (fun x => decide (x = a) || decide (x = b)) &&
  decide (a ∈ xs) && decide (b ∈ xs)

/-- Resolution of an address to live blocks.  Modelled from the spec:
`OptimizationPass._get_block` raises `MultipleBlocksException` when
"address resolution finds more than one Block at that address"
(`_get_block`/`_get_blocks` are outside the given sources). -/
inductive BlocksAt where
  | nothing
  | one (b : Block)
  | multiple (bs : List Block)
deriving DecidableEq, Repr

def getBlockAt (g : Graph) (a : Int) : BlocksAt :=
  match g.nodes.filter (fun n => decide (n.addr = a)) with
  | [] => .nothing
  | [b] => .one b
  | bs => .multiple bs

/-- Python set insertion for `used_nodes`. -/
def addUsed (used : List Block) (b : Block) : List Block :=
  if b ∈ used then used else used ++ [b]

/-- The mutable state of one chain walk (lines 284-287): collected cases,
redundant extra-comparison nodes, the `default_case_candidates` dict
(assoc list keyed by address, in insertion order), `last_comp`, and the
global consumed-node set `used_nodes`. -/
structure WalkSt where
  cases : List Case
  extras : List Block
  cands : List (Int × Case)
  lastComp : Option Block
  used : List Block
deriving DecidableEq, Repr

/-- The worklist traversal of one chain (lines 288-368).  The stack is
FIFO (`stack.pop(0)` / `stack.append`); entries carry the bookkeeping
value bounds.  Fuel-bounded: `none` models either non-termination or a
raised exception (both abort the Python pass). -/
def walkChain (g : Graph) (comps : List (Block × String × CompInfo))
    (head : Block) :
    Nat → List (Block × Int × Int) → WalkSt → Option WalkSt
  | _, [], st => some st
  | 0, _ :: _, _ => none
  | fuel + 1, (comp, lo, hi) :: rest, st =>
    match compsFind comps comp with
    | none => none
    | some (ctype, ci) =>
      let lastVh : Option (List HTok) := st.cases.getLast?.map Case.variable_hash
      if ci.op = "eq" then
        if lastVh = none ∨ lastVh = some ci.vhash then
          if ci.target = comp.addr then some st
          else
            let st := { st with
              cases := st.cases ++ [⟨comp, some ctype, ci.vhash, some ci.expr,
                .int ci.value, ci.target, some ci.nextAddr⟩],
              used := addUsed st.used comp }
            if comp ≠ head ∧ g.inDegree comp > 1 then some st
            else
              let succs := (g.successors comp).filter (fun s => !decide (s = comp))
              let succAddrs := dedupKeepFirst (succs.map Block.addr)
              if ci.target ∈ succAddrs then
                match (succAddrs.filter (fun a => !decide (a = ci.target))).head? with
                | none => some st
                | some nextCompAddr =>
                  match getBlockAt g nextCompAddr with
                  | .nothing => none
                  | .multiple bs =>
                    match bs.head? with
                    | none => none
                    | some b0 =>
                      if compsFind comps b0 = none then
                        some { st with
                          cases := st.cases ++ [⟨comp, none, ci.vhash,
                            some ci.expr, .dflt, nextCompAddr, none⟩],
                          used := addUsed st.used comp }
                      else some st
                  | .one nextComp =>
                    if compsFind comps nextComp ≠ none then
                      walkChain g comps head fuel (rest ++ [(nextComp, lo, hi)])
                        { st with lastComp := some comp,
                                  used := addUsed st.used comp }
                    else
                      if nextCompAddr ∈ st.cands.map Prod.fst then
                        walkChain g comps head fuel rest st
                      else
                        walkChain g comps head fuel rest
                          { st with
                            cands := st.cands ++ [(nextCompAddr,
                              ⟨comp, none, ci.vhash, some ci.expr, .dflt,
                               nextCompAddr, none⟩)],
                            used := addUsed st.used comp }
              else walkChain g comps head fuel rest st
        else
          match st.lastComp with
          | none => some st
          | some lc =>
            if comp.addr ∈ st.cands.map Prod.fst then some st
            else
              match lastVh with
              | none => some st
              | some lvh =>
                some { st with
                  cands := st.cands ++ [(comp.addr,
                    ⟨lc, none, lvh, none, .dflt, comp.addr, none⟩)] }
      else if ci.op = "gt" then
        if lastVh = none ∨ lastVh = some ci.vhash then
          let succs := (g.successors comp).filter (fun s => !decide (s = comp))
          let succAddrs := dedupKeepFirst (succs.map Block.addr)
          if sameAddrSet succAddrs ci.target ci.nextAddr then
            match succs.find? (fun s => decide (s.addr = ci.target)),
                  succs.find? (fun s => decide (s.addr = ci.nextAddr)) with
            | some gtComp, some leComp =>
              if compsFind comps gtComp ≠ none ∧ compsFind comps leComp ≠ none then
                walkChain g comps head fuel
                  (rest ++ [(gtComp, ci.value, hi), (leComp, lo, ci.value - 1)])
                  { st with extras := st.extras ++ [comp],
                            used := addUsed st.used comp }
              else some st
            | _, _ => none
          else some st
        else some st
      else none

/-- `cases_issubset` (lines 620-630): membership by `Case.__eq__`. -/
def casesContains (cs : List Case) (c : Case) : Bool :=
  cs.any (fun x => caseEq c x)

def casesIssubset (cs0 cs1 : List Case) : Bool :=
  if cs1.length < cs0.length then false
  else cs0.all (fun c => casesContains cs1 c)

/-- The subset merge of an accepted chain into the per-hash chain list
(lines 374-382): replace the first existing subset chain (folding the
redundant node sets together as a Python set), drop the new chain if it
is a subset of an existing one, append otherwise. -/
def mergeChainInto : List (List Case × List Block) → List Case → List Block →
    List (List Case × List Block)
  | [], cases, extras => [(cases, extras)]
  | (ecs, ern) :: rest, cases, extras =>
    if casesIssubset ecs cases then (cases, dedupBlocks (ern ++ extras)) :: rest
    else if casesIssubset cases ecs then (ecs, ern) :: rest
    else (ecs, ern) :: mergeChainInto rest cases extras

/-- `varhash_to_caselists` update (defaultdict in insertion order). -/
def mapAdd (m : List (List HTok × List (List Case × List Block)))
    (v : List HTok) (cases : List Case) (extras : List Block) :
    List (List HTok × List (List Case × List Block)) :=
  match m with
  | [] => [(v, mergeChainInto [] cases extras)]
  | (k, lst) :: rest =>
    if k = v then (k, mergeChainInto lst cases extras) :: rest
    else (k, lst) :: mapAdd rest v cases extras

/-- One head iteration of the chain-assembly loop (lines 280-382): skip
consumed heads, walk the chain, accept it when it produced at least one
case and at most one distinct default-case candidate address (appending
the candidate, if any, as a Case with value `"default"`), and merge it
into the per-hash map. -/
def processHead (g : Graph) (comps : List (Block × String × CompInfo))
    (fuel : Nat)
    (acc : List (List HTok × List (List Case × List Block)) × List Block)
    (head : Block) :
    Option (List (List HTok × List (List Case × List Block)) × List Block) :=
  if head ∈ acc.2 then some acc
  else
    match walkChain g comps head fuel [(head, 0, 18446744073709551615)]
        ⟨[], [], [], none, acc.2⟩ with
    | none => none
    | some st =>
      if st.cases ≠ [] ∧ st.cands.length ≤ 1 then
        let cases := st.cases ++ (st.cands.map Prod.snd).take 1
        match cases.getLast? with
        | none => none
        | some lastCase =>
          some (mapAdd acc.1 lastCase.variable_hash cases st.extras, st.used)
      else some (acc.1, st.used)

def processHeads (g : Graph) (comps : List (Block × String × CompInfo))
    (fuel : Nat) :
    List Block →
    (List (List HTok × List (List Case × List Block)) × List Block) →
    Option (List (List HTok × List (List Case × List Block)) × List Block)
  | [], acc => some acc
  | h :: rest, acc =>
    match processHead g comps fuel acc h with
    | none => none
    | some acc' => processHeads g comps fuel rest acc'

def isDefaultVal : CVal → Bool
  | .dflt => true
  | .int _ => false

def isCondJump : Stmt → Bool
  | .condJump _ _ _ => true
  | _ => false

def nonDefaultCount (cs : List Case) : Nat :=
  (cs.filter (fun c => !isDefaultVal c.value)).length

/-- Filter (lines 391-397): a non-default type-a case after the first
whose block holds a statement other than conditional jump / label /
assignment invalidates the chain. -/
def filterMalformedTypeA (cs : List Case) : Bool :=
  (cs.drop 1).any (fun c =>
    !isDefaultVal c.value && decide (c.node_type = some "a") &&
    c.original_node.statements.any (fun s =>
      !(isCondJump s || decide (s = Stmt.label) || decide (s = Stmt.assign))))

/-- Filter (lines 399-415): each case must have exactly one successor of
its originating node at the target address, and every predecessor of that
target node whose address equals the target address must be one of the
chain's case nodes. -/
def filterReachability (g : Graph) (cs : List Case) : Bool :=
  cs.any (fun c =>
    let targetNodes := (g.successors c.original_node).filter
      (fun s => decide (s.addr = c.target))
    match targetNodes with
    | [t] =>
      let nonselfPreds := (g.predecessors t).filter
        (fun p => decide (p.addr = c.target))
      !nonselfPreds.all (fun p => cs.any (fun c2 => decide (c2.original_node = p)))
    | _ => true)

/-- The final chain filters (lines 384-421): a chain entry survives iff
it has at least two non-default cases, no malformed type-a case, and
passes the reachability filter. -/
def chainKept (g : Graph) (cs : List Case) : Bool :=
  decide (2 ≤ nonDefaultCount cs) && !filterMalformedTypeA cs &&
  !filterReachability g cs

def filterChains (g : Graph)
    (m : List (List HTok × List (List Case × List Block))) :
    List (List HTok × List (List Case × List Block)) :=
  m.map (fun kv => (kv.1, kv.2.filter (fun ce => chainKept g ce.1)))

/-- `_find_cascading_switch_variable_comparisons`: classification, chain
assembly over all heads, and final filtering. -/
def findCascading (g : Graph) (order : List Block) (fuel : Nat) :
    Option (List (List HTok × List (List Case × List Block))) :=
  let comps := buildComparisons order
  match processHeads g comps fuel (comps.map Prod.fst) ([], []) with
  | none => none
  | some (m, _) => some (filterChains g m)

/-! ### Claim C6: invariants of emitted chains -/

/-- All registered default-case candidates carry the `"default"` value. -/
def candsAllDefault (st : WalkSt) : Prop :=
  ∀ p ∈ st.cands, p.2.value = CVal.dflt

theorem walkChain_cands_default (g : Graph)
    (comps : List (Block × String × CompInfo)) (head : Block) (fuel : Nat) :
    ∀ stack st st', walkChain g comps head fuel stack st = some st' →
      candsAllDefault st → candsAllDefault st' := by
  induction fuel with
  | zero =>
    intro stack st st' h hinv
    match stack with
    | [] =>
      simp only [walkChain, Option.some.injEq] at h
      subst h
      exact hinv
    | e :: rest => simp [walkChain] at h
  | succ n ih =>
    intro stack st st' h hinv
    match stack with
    | [] =>
      simp only [walkChain, Option.some.injEq] at h
      subst h
      exact hinv
    | (comp, lo, hi) :: rest =>
      simp only [walkChain] at h
      repeat' split at h
      all_goals first
        | exact Option.noConfusion h
        | (simp only [Option.some.injEq] at h
           subst h
           intro p hp
           first
             | exact hinv p hp
             | (simp only [List.mem_append, List.mem_singleton] at hp
                rcases hp with hp | hp
                · exact hinv p hp
                · subst hp; rfl))
        | (refine ih _ _ _ h ?_
           intro p hp
           first
             | exact hinv p hp
             | (simp only [List.mem_append, List.mem_singleton] at hp
                rcases hp with hp | hp
                · exact hinv p hp
                · subst hp; rfl))

/-- A case list assembled and accepted by the per-head walk: at least one
case was produced, at most one distinct default-case candidate address was
registered, the candidate (if any) is appended as exactly one trailing
Case, and every registered candidate carries the value `"default"`. -/
def acceptedWalkCases (g : Graph) (comps : List (Block × String × CompInfo))
    (cs : List Case) : Prop :=
  ∃ head used0 fuel st,
    walkChain g comps head fuel [(head, 0, 18446744073709551615)]
      ⟨[], [], [], none, used0⟩ = some st ∧
    st.cases ≠ [] ∧ st.cands.length ≤ 1 ∧
    cs = st.cases ++ (st.cands.map Prod.snd).take 1 ∧
    candsAllDefault st

theorem mergeChainInto_mem (P : List Case → Prop)
    (lst : List (List Case × List Block)) (cases : List Case)
    (extras : List Block) (hlst : ∀ ce ∈ lst, P ce.1) (hc : P cases) :
    ∀ ce ∈ mergeChainInto lst cases extras, P ce.1 := by
  induction lst with
  | nil =>
    intro ce hce
    simp only [mergeChainInto, List.mem_singleton] at hce
    subst hce
    exact hc
  | cons e rest ih =>
    intro ce hce
    simp only [mergeChainInto] at hce
    split at hce
    · rcases List.mem_cons.mp hce with hh | ht
      · subst hh; exact hc
      · exact hlst ce (List.mem_cons_of_mem e ht)
    · split at hce
      · rcases List.mem_cons.mp hce with hh | ht
        · subst hh; exact hlst e (List.mem_cons_self e rest)
        · exact hlst ce (List.mem_cons_of_mem e ht)
      · rcases List.mem_cons.mp hce with hh | ht
        · subst hh; exact hlst e (List.mem_cons_self e rest)
        · exact ih (fun ce' hce' => hlst ce' (List.mem_cons_of_mem e hce')) ce ht

theorem mapAdd_mem (P : List Case → Prop)
    (m : List (List HTok × List (List Case × List Block))) (v : List HTok)
    (cases : List Case) (extras : List Block)
    (hm : ∀ kv ∈ m, ∀ ce ∈ kv.2, P ce.1) (hc : P cases) :
    ∀ kv ∈ mapAdd m v cases extras, ∀ ce ∈ kv.2, P ce.1 := by
  induction m with
  | nil =>
    intro kv hkv ce hce
    simp only [mapAdd, List.mem_singleton] at hkv
    subst hkv
    exact mergeChainInto_mem P [] cases extras (by simp) hc ce hce
  | cons e rest ih =>
    intro kv hkv ce hce
    simp only [mapAdd] at hkv
    split at hkv
    · rcases List.mem_cons.mp hkv with hh | ht
      · subst hh
        exact mergeChainInto_mem P e.2 cases extras
          (hm e (List.mem_cons_self e rest)) hc ce hce
      · exact hm kv (List.mem_cons_of_mem e ht) ce hce
    · rcases List.mem_cons.mp hkv with hh | ht
      · subst hh
        exact hm e (List.mem_cons_self e rest) ce hce
      · exact ih (fun kv' hkv' ce' hce' =>
          hm kv' (List.mem_cons_of_mem e hkv') ce' hce') kv ht ce hce

theorem processHead_mem (g : Graph) (comps : List (Block × String × CompInfo))
    (fuel : Nat)
    (acc acc' : List (List HTok × List (List Case × List Block)) × List Block)
    (head : Block) (h : processHead g comps fuel acc head = some acc')
    (hm : ∀ kv ∈ acc.1, ∀ ce ∈ kv.2, acceptedWalkCases g comps ce.1) :
    ∀ kv ∈ acc'.1, ∀ ce ∈ kv.2, acceptedWalkCases g comps ce.1 := by
  simp only [processHead] at h
  split at h
  · simp only [Option.some.injEq] at h
    subst h
    exact hm
  · split at h
    · exact absurd h (by simp)
    next st hwalk =>
      split at h
      next hacc =>
        split at h
        · exact absurd h (by simp)
        next lastCase hlast =>
          simp only [Option.some.injEq] at h
          subst h
          refine mapAdd_mem _ acc.1 lastCase.variable_hash _ st.extras hm ?_
          exact ⟨head, acc.2, fuel, st, hwalk, hacc.1, hacc.2, rfl,
            walkChain_cands_default g comps head fuel _ _ st hwalk
              (by intro p hp; simp at hp)⟩
      · simp only [Option.some.injEq] at h
        subst h
        exact hm

theorem processHeads_mem (g : Graph) (comps : List (Block × String × CompInfo))
    (fuel : Nat) (heads : List Block)
    (acc acc' : List (List HTok × List (List Case × List Block)) × List Block)
    (h : processHeads g comps fuel heads acc = some acc')
    (hm : ∀ kv ∈ acc.1, ∀ ce ∈ kv.2, acceptedWalkCases g comps ce.1) :
    ∀ kv ∈ acc'.1, ∀ ce ∈ kv.2, acceptedWalkCases g comps ce.1 := by
  induction heads generalizing acc with
  | nil =>
    simp only [processHeads, Option.some.injEq] at h
    subst h
    exact hm
  | cons hd rest ih =>
    simp only [processHeads] at h
    split at h
    · exact absurd h (by simp)
    next acc'' hstep =>
      exact ih acc'' h (processHead_mem g comps fuel acc acc'' hd hstep hm)

/-- Claim C6: every chain emitted by the recognizer's final result has at
least two Cases whose value is not `"default"`, and was assembled by a
per-head walk that registered at most one distinct default-case candidate
address, the candidate (if any) being appended as exactly one trailing
Case with value `"default"`. -/
theorem c6_emitted_chain_invariant (g : Graph) (order : List Block)
    (fuel : Nat) (result : List (List HTok × List (List Case × List Block)))
    (h : findCascading g order fuel = some result) :
    ∀ vh chains, (vh, chains) ∈ result → ∀ ce, ce ∈ chains →
      2 ≤ nonDefaultCount ce.1 ∧
      acceptedWalkCases g (buildComparisons order) ce.1 := by
  intro vh chains hkv ce hce
  simp only [findCascading] at h
  split at h
  · exact absurd h (by simp)
  next m used hrun =>
    simp only [Option.some.injEq] at h
    subst h
    simp only [filterChains, List.mem_map] at hkv
    obtain ⟨kv0, hkv0, hkv0eq⟩ := hkv
    have hchains : chains = kv0.2.filter (fun ce => chainKept g ce.1) := by
      have := congrArg Prod.snd hkv0eq
      simpa using this.symm
    rw [hchains] at hce
    have hmem := List.mem_filter.mp hce
    constructor
    · have hk := hmem.2
      simp only [chainKept, Bool.and_eq_true, decide_eq_true_eq] at hk
      exact hk.1.1
    · exact processHeads_mem g (buildComparisons order) fuel _ _ (m, used)
        hrun (by intro kv hkv'; simp at hkv') kv0 hkv0 ce hmem.1

/-! ### The concrete 4-way equality ladder (spec Scenario 2)
`x==1 → T1, else x==2 → T2, else x==3 → T3, else default → D`. -/

def ladderBlockA : Block :=
  ⟨100, none, [.condJump (.binop "CmpEQ" (.var 1) (.const 1 32))
    (.const 1000 64) (.const 110 64)]⟩

def ladderBlockB : Block :=
  ⟨110, none, [.condJump (.binop "CmpEQ" (.var 1) (.const 2 32))
    (.const 1010 64) (.const 120 64)]⟩

def ladderBlockC : Block :=
  ⟨120, none, [.condJump (.binop "CmpEQ" (.var 1) (.const 3 32))
    (.const 1020 64) (.const 1030 64)]⟩

def ladderT1 : Block := ⟨1000, none, [.other]⟩
def ladderT2 : Block := ⟨1010, none, [.other]⟩
def ladderT3 : Block := ⟨1020, none, [.other]⟩
def ladderD : Block := ⟨1030, none, [.other]⟩

def ladderGraph : Graph :=
  ⟨[ladderBlockA, ladderBlockB, ladderBlockC, ladderT1, ladderT2, ladderT3,
    ladderD],
   [(ladderBlockA, ladderT1), (ladderBlockA, ladderBlockB),
    (ladderBlockB, ladderT2), (ladderBlockB, ladderBlockC),
    (ladderBlockC, ladderT3), (ladderBlockC, ladderD)]⟩

def ladderCase1 : Case :=
  ⟨ladderBlockA, some "b", [.varTok 1], some (.var 1), .int 1, 1000, some 110⟩

def ladderCase2 : Case :=
  ⟨ladderBlockB, some "b", [.varTok 1], some (.var 1), .int 2, 1010, some 120⟩

def ladderCase3 : Case :=
  ⟨ladderBlockC, some "b", [.varTok 1], some (.var 1), .int 3, 1020, some 1030⟩

def ladderDefaultCase : Case :=
  ⟨ladderBlockC, none, [.varTok 1], some (.var 1), .dflt, 1030, none⟩

def ladderChain : List Case :=
  [ladderCase1, ladderCase2, ladderCase3, ladderDefaultCase]

def ladderResult : List (List HTok × List (List Case × List Block)) :=
  [([.varTok 1], [(ladderChain, [])])]

/-- The recognizer, run on the Scenario 2 ladder, emits exactly one chain
with three non-default cases and one trailing default case. -/
theorem findCascading_ladder :
    findCascading ladderGraph ladderGraph.nodes 10 = some ladderResult := rfl

/-- Witness for `c6_emitted_chain_invariant` on the Scenario 2 ladder. -/
theorem c6_emitted_chain_invariant_witness :
    2 ≤ nonDefaultCount ladderChain ∧
    acceptedWalkCases ladderGraph (buildComparisons ladderGraph.nodes)
      ladderChain :=
  c6_emitted_chain_invariant ladderGraph ladderGraph.nodes 10 ladderResult
    findCascading_ladder [.varTok 1] [(ladderChain, [])]
    (List.mem_singleton.mpr rfl) (ladderChain, []) (List.mem_singleton.mpr rfl)

/-! ### `LoweredSwitchSimplifier._analyze` (lines 143-258) -/

/-- The control skeleton of `LoweredSwitchSimplifier._analyze`.  The
structuring oracle (`_structure_and_find_gotos`, returning `none` on
structuring failure) is abstracted as a function of the graph; the chain
application body (lines 159-250) is abstracted as `applyChains`, with
`none` standing for the unsafe-merge abort at lines 211-213 that sets
`out_graph = None` and returns.  The second component of the result
records whether the recognizer was invoked; the outer `none` models a
non-terminating recognizer. -/
def lssAnalyze (oracle : Graph → Option (List Goto))
    (applyChains : Graph → List (List HTok × List (List Case × List Block)) →
      Option Graph)
    (g : Graph) (order : List Block) (fuel : Nat) :
    Option (Option Graph × Bool) :=
  match oracle g with
  | none => some (none, false)
  | some gs =>
    if gs.isEmpty then some (none, false)
    else
      match findCascading g order fuel with
      | none => none
      | some chains =>
        if chains.isEmpty then some (none, true)
        else
          match applyChains g chains with
          | none => some (none, true)
          | some g2 =>
            match oracle g2 with
            | none => some (none, true)
            | some newGotos =>
              if gs.length < newGotos.length then some (none, true)
              else some (some g2, true)

/-- Claim C10: when the initial oracle call fails or reports zero gotos,
the pass produces no output graph and never runs the recognizer (nor any
rewrite). -/
theorem c10_no_initial_gotos_no_rewrite (oracle : Graph → Option (List Goto))
    (applyChains : Graph → List (List HTok × List (List Case × List Block)) →
      Option Graph)
    (g : Graph) (order : List Block) (fuel : Nat)
    (h : oracle g = none ∨ oracle g = some []) :
    lssAnalyze oracle applyChains g order fuel = some (none, false) := by
  rcases h with h | h <;> simp [lssAnalyze, h]

/-- Witness for `c10_no_initial_gotos_no_rewrite`: an always-failing
oracle on the Scenario 2 ladder graph. -/
theorem c10_no_initial_gotos_no_rewrite_witness :
    lssAnalyze (fun _ => none) (fun _ _ => none) ladderGraph
      ladderGraph.nodes 10 = some (none, false) :=
  c10_no_initial_gotos_no_rewrite (fun _ => none) (fun _ _ => none)
    ladderGraph ladderGraph.nodes 10 (Or.inl rfl)

/-- Claim C2: in a run that reached chain application (non-empty initial
goto set, non-empty recognizer result, chain application succeeded with
rewritten graph `g2`), the rewritten graph is the pass output if and only
if re-invoking the oracle on it succeeds with a goto count less than or
equal to the initial count; if the oracle fails or the count increases,
the whole rewrite is discarded and the pass outputs no change. -/
theorem c2_rewrite_acceptance_gate (oracle : Graph → Option (List Goto))
    (applyChains : Graph → List (List HTok × List (List Case × List Block)) →
      Option Graph)
    (g : Graph) (order : List Block) (fuel : Nat)
    (res : Option Graph) (ran : Bool)
    (gs : List Goto) (chains : List (List HTok × List (List Case × List Block)))
    (g2 : Graph)
    (hrun : lssAnalyze oracle applyChains g order fuel = some (res, ran))
    (hgs : oracle g = some gs) (hgsne : ¬ gs.isEmpty)
    (hch : findCascading g order fuel = some chains) (hchne : ¬ chains.isEmpty)
    (happ : applyChains g chains = some g2) :
    (res = some g2 ↔
      ∃ newGotos, oracle g2 = some newGotos ∧ newGotos.length ≤ gs.length) ∧
    ((oracle g2 = none ∨
      ∃ newGotos, oracle g2 = some newGotos ∧ gs.length < newGotos.length) →
      res = none) := by
  simp only [lssAnalyze, hgs, if_neg hgsne, hch, if_neg hchne, happ] at hrun
  split at hrun
  next horc =>
    simp only [Option.some.injEq, Prod.mk.injEq] at hrun
    rw [horc, ← hrun.1]
    constructor
    · constructor
      · intro hfalse; exact absurd hfalse (by simp)
      · rintro ⟨n, hn, _⟩; exact absurd hn (by simp)
    · intro _; rfl
  next newGotos horc =>
    rw [horc]
    split at hrun
    next hlt =>
      simp only [Option.some.injEq, Prod.mk.injEq] at hrun
      rw [← hrun.1]
      constructor
      · constructor
        · intro hfalse; exact absurd hfalse (by simp)
        · rintro ⟨n, hn, hle⟩
          simp only [Option.some.injEq] at hn
          subst hn
          omega
      · intro _; rfl
    next hlt =>
      simp only [Option.some.injEq, Prod.mk.injEq] at hrun
      rw [← hrun.1]
      constructor
      · simp only [Option.some.injEq, true_iff]
        exact ⟨newGotos, rfl, Nat.not_lt.mp hlt⟩
      · rintro (hn | ⟨n, hn, hlt2⟩)
        · exact absurd hn (by simp)
        · simp only [Option.some.injEq] at hn
          subst hn
          omega

/-- Witness for `c2_rewrite_acceptance_gate`: on the Scenario 2 ladder
with a constant one-goto oracle and a chain application that returns the
graph unchanged, the rewrite is accepted (1 ≤ 1). -/
theorem c2_rewrite_acceptance_gate_witness :
    ((some ladderGraph : Option Graph) = some ladderGraph ↔
      ∃ newGotos, (fun (_ : Graph) => some [(⟨100, 1000⟩ : Goto)]) ladderGraph =
        some newGotos ∧ newGotos.length ≤ [(⟨100, 1000⟩ : Goto)].length) ∧
    (((fun (_ : Graph) => some [(⟨100, 1000⟩ : Goto)]) ladderGraph = none ∨
      ∃ newGotos, (fun (_ : Graph) => some [(⟨100, 1000⟩ : Goto)]) ladderGraph =
        some newGotos ∧ [(⟨100, 1000⟩ : Goto)].length < newGotos.length) →
      (some ladderGraph : Option Graph) = none) :=
  c2_rewrite_acceptance_gate (fun _ => some [⟨100, 1000⟩])
    (fun gr _ => some gr) ladderGraph ladderGraph.nodes 10
    (some ladderGraph) true [⟨100, 1000⟩] ladderResult ladderGraph
    rfl rfl (by decide) findCascading_ladder (by decide) rfl

/-! ### Shared case-node duplication (lines 232-250) -/

/-- The inner successor-reproduction loop: for every original successor,
link the copy to it, redirecting a self-loop on the original to a
self-loop on the copy. -/
def dupSuccEdges (nodeCopy origNode : Block) :
    Graph → List Block → Graph
  | g, [] => g
  | g, s :: rest =>
    let g := if s = origNode then g.addEdge nodeCopy nodeCopy
             else g.addEdge nodeCopy s
    dupSuccEdges nodeCopy origNode g rest

/-- The per-head copy loop: each referring head gets its own copy of the
shared node, with consecutive disambiguating indices, an edge from the
head, and the shared node's original successor edges. -/
def dupePerHead (origNode : Block) (succs : List Block) :
    Nat → Graph → List Block → Graph
  | _, g, [] => g
  | nextId, g, head :: rest =>
    let nodeCopy : Block := { origNode with idx := some nextId }
    let g := g.addEdge head nodeCopy
    let g := dupSuccEdges nodeCopy origNode g succs
    dupePerHead origNode succs (nextId + 1) g rest

/-- The shared case-node resolution loop of `_analyze` (lines 235-250):
every entry of `node_to_heads` with more than one referring dispatch head
is removed from the graph and replaced by one copy per head. -/
def dedupSharedNodes : Graph → List (Block × List Block) → Graph
  | g, [] => g
  | g, (succNode, heads) :: rest =>
    if heads.length > 1 then
      let succs := g.successors succNode
      let nextId := match succNode.idx with | none => 0 | some i => i + 1
      let g := g.removeNode succNode
      let g := dupePerHead succNode succs nextId g heads
      dedupSharedNodes g rest
    else dedupSharedNodes g rest

/-- Number of predecessors of `b` that are dispatch heads. -/
def headPredCount (g : Graph) (heads : List Block) (b : Block) : Nat :=
  ((g.predecessors b).filter (fun p => decide (p ∈ heads))).length

set_option maxHeartbeats 1000000 in
/-- Claim C8: for a graph in which block `S` (with a self-loop and a
successor `T`) became a direct successor of the two dispatch heads `H1`
and `H2`, the shared-node resolution loop removes `S` and replaces it by
one duplicate per referring head, each duplicate carrying a distinct
index, receiving an edge from its head, and reproducing all of `S`'s
original successor edges with the self-loop redirected to the duplicate;
in the output no block has more than one dispatch head as a
predecessor. -/
theorem c8_shared_successor_duplication
    (aH1 aH2 aS aT : Int) (sH1 sH2 sS sT : List Stmt)
    (h12 : aH1 ≠ aH2) (h1S : aH1 ≠ aS) (h2S : aH2 ≠ aS)
    (h1T : aH1 ≠ aT) (h2T : aH2 ≠ aT) (hST : aS ≠ aT) :
    dedupSharedNodes
      ⟨[⟨aH1, none, sH1⟩, ⟨aH2, none, sH2⟩, ⟨aS, none, sS⟩, ⟨aT, none, sT⟩],
       [(⟨aH1, none, sH1⟩, ⟨aS, none, sS⟩),
        (⟨aH2, none, sH2⟩, ⟨aS, none, sS⟩),
        (⟨aS, none, sS⟩, ⟨aS, none, sS⟩),
        (⟨aS, none, sS⟩, ⟨aT, none, sT⟩)]⟩
      [(⟨aS, none, sS⟩, [⟨aH1, none, sH1⟩, ⟨aH2, none, sH2⟩])] =
      ⟨[⟨aH1, none, sH1⟩, ⟨aH2, none, sH2⟩, ⟨aT, none, sT⟩,
        ⟨aS, some 0, sS⟩, ⟨aS, some 1, sS⟩],
       [(⟨aH1, none, sH1⟩, ⟨aS, some 0, sS⟩),
        (⟨aS, some 0, sS⟩, ⟨aS, some 0, sS⟩),
        (⟨aS, some 0, sS⟩, ⟨aT, none, sT⟩),
        (⟨aH2, none, sH2⟩, ⟨aS, some 1, sS⟩),
        (⟨aS, some 1, sS⟩, ⟨aS, some 1, sS⟩),
        (⟨aS, some 1, sS⟩, ⟨aT, none, sT⟩)]⟩ ∧
    (⟨aS, some 0, sS⟩ : Block) ≠ ⟨aS, some 1, sS⟩ ∧
    (⟨aS, none, sS⟩ : Block) ∉
      [(⟨aH1, none, sH1⟩ : Block), ⟨aH2, none, sH2⟩, ⟨aT, none, sT⟩,
       ⟨aS, some 0, sS⟩, ⟨aS, some 1, sS⟩] ∧
    headPredCount
      ⟨[⟨aH1, none, sH1⟩, ⟨aH2, none, sH2⟩, ⟨aT, none, sT⟩,
        ⟨aS, some 0, sS⟩, ⟨aS, some 1, sS⟩],
       [(⟨aH1, none, sH1⟩, ⟨aS, some 0, sS⟩),
        (⟨aS, some 0, sS⟩, ⟨aS, some 0, sS⟩),
        (⟨aS, some 0, sS⟩, ⟨aT, none, sT⟩),
        (⟨aH2, none, sH2⟩, ⟨aS, some 1, sS⟩),
        (⟨aS, some 1, sS⟩, ⟨aS, some 1, sS⟩),
        (⟨aS, some 1, sS⟩, ⟨aT, none, sT⟩)]⟩
      [⟨aH1, none, sH1⟩, ⟨aH2, none, sH2⟩] (⟨aS, some 0, sS⟩) = 1 ∧
    headPredCount
      ⟨[⟨aH1, none, sH1⟩, ⟨aH2, none, sH2⟩, ⟨aT, none, sT⟩,
        ⟨aS, some 0, sS⟩, ⟨aS, some 1, sS⟩],
       [(⟨aH1, none, sH1⟩, ⟨aS, some 0, sS⟩),
        (⟨aS, some 0, sS⟩, ⟨aS, some 0, sS⟩),
        (⟨aS, some 0, sS⟩, ⟨aT, none, sT⟩),
        (⟨aH2, none, sH2⟩, ⟨aS, some 1, sS⟩),
        (⟨aS, some 1, sS⟩, ⟨aS, some 1, sS⟩),
        (⟨aS, some 1, sS⟩, ⟨aT, none, sT⟩)]⟩
      [⟨aH1, none, sH1⟩, ⟨aH2, none, sH2⟩] (⟨aS, some 1, sS⟩) = 1 ∧
    headPredCount
      ⟨[⟨aH1, none, sH1⟩, ⟨aH2, none, sH2⟩, ⟨aT, none, sT⟩,
        ⟨aS, some 0, sS⟩, ⟨aS, some 1, sS⟩],
       [(⟨aH1, none, sH1⟩, ⟨aS, some 0, sS⟩),
        (⟨aS, some 0, sS⟩, ⟨aS, some 0, sS⟩),
        (⟨aS, some 0, sS⟩, ⟨aT, none, sT⟩),
        (⟨aH2, none, sH2⟩, ⟨aS, some 1, sS⟩),
        (⟨aS, some 1, sS⟩, ⟨aS, some 1, sS⟩),
        (⟨aS, some 1, sS⟩, ⟨aT, none, sT⟩)]⟩
      [⟨aH1, none, sH1⟩, ⟨aH2, none, sH2⟩] (⟨aT, none, sT⟩) = 0 := by
  set H1 : Block := ⟨aH1, none, sH1⟩ with hH1
  set H2 : Block := ⟨aH2, none, sH2⟩ with hH2
  set S : Block := ⟨aS, none, sS⟩ with hS
  set T : Block := ⟨aT, none, sT⟩ with hT
  set S0 : Block := ⟨aS, some 0, sS⟩ with hS0
  set S1 : Block := ⟨aS, some 1, sS⟩ with hS1
  have hTS : ¬ ((T : Block) = S) := by simp [hT, hS, Ne.symm hST]
  have hsucc : Graph.successors
      ⟨[H1, H2, S, T], [(H1, S), (H2, S), (S, S), (S, T)]⟩ S = [S, T] := by
    simp [Graph.successors, List.filter, hH1, hH2, hS, hT, h1S, h2S]
  have hrm : Graph.removeNode
      ⟨[H1, H2, S, T], [(H1, S), (H2, S), (S, S), (S, T)]⟩ S =
      ⟨[H1, H2, T], []⟩ := by
    simp [Graph.removeNode, List.filter, hH1, hH2, hS, hT, h1S, h2S,
      Ne.symm hST, hST]
  have h1 : Graph.addEdge ⟨[H1, H2, T], []⟩ H1 S0 =
      ⟨[H1, H2, T, S0], [(H1, S0)]⟩ := by
    simp [Graph.addEdge, Graph.addNode, hH1, hH2, hS, hT, hS0]
  have h2 : Graph.addEdge ⟨[H1, H2, T, S0], [(H1, S0)]⟩ S0 S0 =
      ⟨[H1, H2, T, S0], [(H1, S0), (S0, S0)]⟩ := by
    simp [Graph.addEdge, Graph.addNode, hH1, hH2, hT, hS0, h1S, Ne.symm h1S]
  have h3 : Graph.addEdge ⟨[H1, H2, T, S0], [(H1, S0), (S0, S0)]⟩ S0 T =
      ⟨[H1, H2, T, S0], [(H1, S0), (S0, S0), (S0, T)]⟩ := by
    simp [Graph.addEdge, Graph.addNode, hH1, hH2, hT, hS0, h1S, hST,
      Ne.symm hST, Ne.symm h1S]
  have h4 : Graph.addEdge ⟨[H1, H2, T, S0], [(H1, S0), (S0, S0), (S0, T)]⟩
      H2 S1 = ⟨[H1, H2, T, S0, S1], [(H1, S0), (S0, S0), (S0, T), (H2, S1)]⟩ := by
    simp [Graph.addEdge, Graph.addNode, hH1, hH2, hT, hS0, hS1, h12, h2S,
      h2T, Ne.symm h12, Ne.symm h2S]
  have h5 : Graph.addEdge
      ⟨[H1, H2, T, S0, S1], [(H1, S0), (S0, S0), (S0, T), (H2, S1)]⟩ S1 S1 =
      ⟨[H1, H2, T, S0, S1],
       [(H1, S0), (S0, S0), (S0, T), (H2, S1), (S1, S1)]⟩ := by
    simp [Graph.addEdge, Graph.addNode, hH1, hH2, hT, hS0, hS1, h1S, h2S,
      Ne.symm h1S, Ne.symm h2S]
  have h6 : Graph.addEdge ⟨[H1, H2, T, S0, S1],
      [(H1, S0), (S0, S0), (S0, T), (H2, S1), (S1, S1)]⟩ S1 T =
      ⟨[H1, H2, T, S0, S1],
       [(H1, S0), (S0, S0), (S0, T), (H2, S1), (S1, S1), (S1, T)]⟩ := by
    simp [Graph.addEdge, Graph.addNode, hH1, hH2, hT, hS0, hS1, h1S, h2S,
      hST, Ne.symm hST, Ne.symm h1S, Ne.symm h2S]
  refine ⟨?_, by simp [hS0, hS1], by simp [hH1, hH2, hS, hT, hS0, hS1,
      Ne.symm h1S, Ne.symm h2S, hST], ?_, ?_, ?_⟩
  · simp only [dedupSharedNodes, List.length_cons, List.length_nil]
    rw [if_pos (by norm_num)]
    rw [hsucc, hrm]
    simp only [dupePerHead]
    simp only [hS, hS0, hS1]
    simp only [← hS, ← hS0, ← hS1, h1]
    simp only [dupSuccEdges, hTS, if_false, eq_self_iff_true, if_true, h2]
    simp only [h3, h4, h5, h6, dedupSharedNodes]
  · simp [headPredCount, Graph.predecessors, List.filter, hH1, hH2, hT,
      hS0, hS1, h1S, h2S, h1T, h2T, Ne.symm h12, h12, hST, Ne.symm h1S,
      Ne.symm h2S, Ne.symm h1T, Ne.symm h2T]
  · simp [headPredCount, Graph.predecessors, List.filter, hH1, hH2, hT,
      hS0, hS1, h1S, h2S, h1T, h2T, Ne.symm h12, h12, hST, Ne.symm h1S,
      Ne.symm h2S, Ne.symm h1T, Ne.symm h2T]
  · simp [headPredCount, Graph.predecessors, List.filter, hH1, hH2, hT,
      hS0, hS1, h1S, h2S, h1T, h2T, Ne.symm h1T, Ne.symm h2T, hST,
      Ne.symm hST, Ne.symm h1S, Ne.symm h2S, h12, Ne.symm h12]

/-- Witness for `c8_shared_successor_duplication` at concrete addresses
10, 20, 30, 40 (spec Scenario 4 with a self-loop on the shared block). -/
theorem c8_shared_successor_duplication_witness :
    dedupSharedNodes
      ⟨[⟨10, none, []⟩, ⟨20, none, []⟩, ⟨30, none, []⟩, ⟨40, none, []⟩],
       [(⟨10, none, []⟩, ⟨30, none, []⟩), (⟨20, none, []⟩, ⟨30, none, []⟩),
        (⟨30, none, []⟩, ⟨30, none, []⟩), (⟨30, none, []⟩, ⟨40, none, []⟩)]⟩
      [(⟨30, none, []⟩, [⟨10, none, []⟩, ⟨20, none, []⟩])] =
      ⟨[⟨10, none, []⟩, ⟨20, none, []⟩, ⟨40, none, []⟩, ⟨30, some 0, []⟩,
        ⟨30, some 1, []⟩],
       [(⟨10, none, []⟩, ⟨30, some 0, []⟩),
        (⟨30, some 0, []⟩, ⟨30, some 0, []⟩),
        (⟨30, some 0, []⟩, ⟨40, none, []⟩),
        (⟨20, none, []⟩, ⟨30, some 1, []⟩),
        (⟨30, some 1, []⟩, ⟨30, some 1, []⟩),
        (⟨30, some 1, []⟩, ⟨40, none, []⟩)]⟩ ∧
    (⟨30, some 0, []⟩ : Block) ≠ ⟨30, some 1, []⟩ ∧
    (⟨30, none, []⟩ : Block) ∉
      [(⟨10, none, []⟩ : Block), ⟨20, none, []⟩, ⟨40, none, []⟩,
       ⟨30, some 0, []⟩, ⟨30, some 1, []⟩] :=
  have h := c8_shared_successor_duplication 10 20 30 40 [] [] [] []
    (by decide) (by decide) (by decide) (by decide) (by decide) (by decide)
  ⟨h.1, h.2.1, h.2.2.1⟩

/-! ### Chain collapse (lines 163-230) and `restore_graph` (lines 533-591) -/

def substBlock (oldB newB b : Block) : Block := if b = oldB then newB else b

/-- Modelled from the spec: `OptimizationPass._update_block` (outside the
given sources) updates a block of the working graph in place — "the first
Case's Block becomes the head; its terminal statement is replaced" — so
the node keeps its graph position and edges. -/
def updateBlock (g : Graph) (oldB newB : Block) : Graph :=
  ⟨g.nodes.map (substBlock oldB newB),
   g.edges.map (fun e => (substBlock oldB newB e.1, substBlock oldB newB e.2))⟩

/-- `all(isinstance(stmt, (Label, ConditionalJump)) for stmt in ...)`. -/
def allLabelCond (b : Block) : Bool :=
  b.statements.all (fun s => decide (s = Stmt.label) || isCondJump s)

/-- The statement-trimmed copy of a case block (lines 178-188): labels and
assignments, followed by a synthesized unconditional jump to the case
target. -/
def trimmedCaseBlock (bits : Nat) (c : Case) : Block :=
  { c.original_node with statements :=
      (c.original_node.statements.filter (fun s =>
        decide (s = Stmt.label) || decide (s = Stmt.assign))) ++
      [Stmt.jump (.const c.target bits)] }

/-- `{nn.addr: nn for nn in graph_copy}` (line 168): the last block at an
address wins. -/
def lastByAddr (nodes : List Block) (a : Int) : Option Block :=
  nodes.reverse.find? (fun n => decide (n.addr = a))

/-- The `case_addrs` / `delayed_edges` construction of the chain
application (lines 170-194), indexed by case position. -/
def buildCaseAddrs (g : Graph) (bits : Nat) :
    Nat → List Case →
    Option (List (Block × CVal × Int × Option Int) × List (Option Block × Block))
  | _, [] => some ([], [])
  | i, c :: rest =>
    if i = 0 ∨ allLabelCond c.original_node then
      match buildCaseAddrs g bits (i + 1) rest with
      | none => none
      | some (cas, des) =>
        some ((c.original_node, c.value, c.target, c.next_addr) :: cas, des)
    else
      let cp := trimmedCaseBlock bits c
      match lastByAddr g.nodes c.target with
      | none => none
      | some targetNode =>
        match buildCaseAddrs g bits (i + 1) rest with
        | none => none
        | some (cas, des) =>
          some ((cp, c.value, cp.addr, c.next_addr) :: cas,
                (none, cp) :: (some cp, targetNode) :: des)

/-- Lines 217-221: the head gets an edge to every successor of a removed
chain node that is not itself part of the chain. -/
def addHeadEdges (newHead : Block) (chainRest : List Block) :
    Graph → List Block → Graph
  | g, [] => g
  | g, s :: rest =>
    let g' := if s ∈ chainRest then g else g.addEdge newHead s
    addHeadEdges newHead chainRest g' rest

/-- Lines 216-222: relink the non-head chain nodes' surviving successors
to the head and remove the chain nodes. -/
def relinkChainNodes (newHead : Block) (chainRest : List Block) :
    Graph → List Block → Graph
  | g, [] => g
  | g, onode :: rest =>
    let g2 := addHeadEdges newHead chainRest g (g.successors onode)
    relinkChainNodes newHead chainRest (g2.removeNode onode) rest

def removeNodesList : Graph → List Block → Graph
  | g, [] => g
  | g, b :: rest => removeNodesList (g.removeNode b) rest

/-- Lines 226-230: apply the delayed edges; a `none` source stands for the
new head. -/
def applyDelayed (newHead : Block) : Graph → List (Option Block × Block) → Graph
  | g, [] => g
  | g, (none, dst) :: rest => applyDelayed newHead (g.addEdge newHead dst) rest
  | g, (some src, dst) :: rest => applyDelayed newHead (g.addEdge src dst) rest

/-- The application of one accepted chain by `_analyze` (lines 164-230):
build the `case_addrs` payload, replace the head's terminal statement by
the placeholder (modelled as the `switchHead` marker, with the payload
returned alongside), relink and remove the non-head chain nodes and the
redundant comparison nodes, and apply the delayed edges.  `none` models
either a raised exception or the unsafe-merge abort of lines 211-213. -/
def applyOneChain (g : Graph) (bits : Nat) (cases : List Case)
    (redundant : List Block) :
    Option (Graph × Block × List (Block × CVal × Int × Option Int)) :=
  match (cases.filter (fun c => !isDefaultVal c.value)).map Case.original_node with
  | [] => none
  | originalHead :: restNodes =>
    match buildCaseAddrs g bits 0 cases with
    | none => none
    | some (caseAddrs, delayed) =>
      match originalHead.statements with
      | [] => none
      | _ :: _ =>
        let newHead : Block := { originalHead with
          statements := originalHead.statements.dropLast ++ [Stmt.switchHead] }
        let g1 := updateBlock g originalHead newHead
        if restNodes.any (fun n => !decide (n ∈ g1.nodes)) then none
        else
          let g2 := relinkChainNodes newHead restNodes g1 restNodes
          let g3 := removeNodesList g2 redundant
          let g4 := applyDelayed newHead g3 delayed
          some (g4, newHead, caseAddrs)

def removeEdgeIfPresent (g : Graph) (u v : Block) : Graph :=
  if (u, v) ∈ g.edges then
    { g with edges := g.edges.filter (fun e => !decide (e = (u, v))) }
  else g

/-- `{ca[0].addr: ca for ca in ca_others}` (line 546): keyed by the case
block's address, last occurrence wins. -/
def caFind (cas : List (Block × CVal × Int × Option Int)) (a : Int) :
    Option (Block × CVal × Int × Option Int) :=
  cas.reverse.find? (fun ca => decide (ca.1.addr = a))

/-- `next(iter(nn for nn in full_graph if nn.addr == target))`. -/
def firstNodeAtAddr (g : Graph) (a : Int) : Option Block :=
  g.nodes.find? (fun n => decide (n.addr = a))

/-- The while loop of `restore_graph` (lines 556-576): follow the
non-default case entries by fallthrough address, re-creating a trimmed
comparison block per case, wiring `last → case → target`, and removing the
head's direct shortcut edge to the target.  The region-local graph and the
full graph receive the same operations and are modelled as one graph. -/
def restoreWalk (node : Block) (cas : List (Block × CVal × Int × Option Int)) :
    Nat → Graph → Block → Option Int → Option (Graph × Block)
  | _, g, lastNode, none => some (g, lastNode)
  | 0, _, _, some _ => none
  | fuel + 1, g, lastNode, some addr =>
    match caFind cas addr with
    | none => some (g, lastNode)
    | some (onode0, _, target, nextAddr) =>
      match onode0.statements.getLast? with
      | none => none
      | some lastStmt =>
        let onode := if firstNonlabelIdx onode0 =
            some (onode0.statements.length - 1) then onode0
          else { onode0 with statements := [lastStmt] }
        let g1 := g.addEdge lastNode onode
        match firstNodeAtAddr g1 target with
        | none => none
        | some targetNode =>
          let g2 := g1.addEdge onode targetNode
          let g3 := removeEdgeIfPresent g2 node targetNode
          restoreWalk node cas fuel g3 onode nextAddr

/-- `LoweredSwitchSimplifier.restore_graph` (lines 533-591): expand the
placeholder at `node` back into concrete per-case edges, wire the default
case's edge if present, and delete the placeholder statement from the head
block. -/
def restoreGraph (g : Graph) (node : Block)
    (caseAddrs : List (Block × CVal × Int × Option Int)) (fuel : Nat) :
    Option Graph :=
  let caDefault := caseAddrs.filter (fun ca => isDefaultVal ca.2.1)
  let caOthers := caseAddrs.filter (fun ca => !isDefaultVal ca.2.1)
  match restoreWalk node caOthers fuel g node (some node.addr) with
  | none => none
  | some (g1, lastNode) =>
    match caDefault with
    | [] =>
      match node.statements.getLast? with
      | none => none
      | some _ =>
        some (updateBlock g1 node { node with statements := node.statements.dropLast })
    | (_, _, target, _) :: _ =>
      match firstNodeAtAddr g1 target with
      | none => none
      | some defaultTarget =>
        let g2 := g1.addEdge lastNode defaultTarget
        let g3 := removeEdgeIfPresent g2 node defaultTarget
        match node.statements.getLast? with
        | none => none
        | some _ =>
          some (updateBlock g3 node { node with statements := node.statements.dropLast })

/-! ### Reachability (for the round-trip property) -/

def reachStep (g : Graph) (visited : List Block) : List Block :=
  g.nodes.filter (fun n =>
    decide (n ∈ visited) ||
    (g.predecessors n).any (fun p => decide (p ∈ visited)))

def reachIter (g : Graph) : Nat → List Block → List Block
  | 0, visited => visited
  | fuel + 1, visited => reachIter g fuel (reachStep g visited)

def reachableAddrs (g : Graph) (start : Block) (fuel : Nat) : List Int :=
  dedupKeepFirst ((reachIter g fuel [start]).map Block.addr)

def caseTargetAddrs (cas : List (Block × CVal × Int × Option Int)) : List Int :=
  dedupKeepFirst (cas.map (fun ca => ca.2.2.1))

/-- The case-target addresses reachable from `start`. -/
def reachableTargets (cas : List (Block × CVal × Int × Option Int))
    (g : Graph) (start : Block) (fuel : Nat) : List Int :=
  (caseTargetAddrs cas).filter (fun a => decide (a ∈ reachableAddrs g start fuel))

/-! ### Claim C9: round trip of the dispatch collapse on Scenario 2 -/

def c9NewHead : Block := ⟨100, none, [.switchHead]⟩

def c9Collapsed : Graph :=
  ⟨[c9NewHead, ladderT1, ladderT2, ladderT3, ladderD],
   [(c9NewHead, ladderT1), (c9NewHead, ladderT2), (c9NewHead, ladderT3),
    (c9NewHead, ladderD)]⟩

def c9CaseAddrs : List (Block × CVal × Int × Option Int) :=
  [(ladderBlockA, .int 1, 1000, some 110),
   (ladderBlockB, .int 2, 1010, some 120),
   (ladderBlockC, .int 3, 1020, some 1030),
   (ladderBlockC, .dflt, 1030, none)]

def c9FinalHead : Block := ⟨100, none, []⟩

def c9Restored : Graph :=
  ⟨[c9FinalHead, ladderT1, ladderT2, ladderT3, ladderD, ladderBlockA,
    ladderBlockB, ladderBlockC],
   [(c9FinalHead, ladderBlockA), (ladderBlockA, ladderT1),
    (ladderBlockA, ladderBlockB), (ladderBlockB, ladderT2),
    (ladderBlockB, ladderBlockC), (ladderBlockC, ladderT3),
    (ladderBlockC, ladderD)]⟩

/-- Claim C9: collapsing the qualifying Scenario 2 chain via the rewriter
into a placeholder head and then expanding it via `restore_graph` yields a
graph whose set of reachable case-target addresses equals that of the
pre-collapse graph; the restore re-creates a comparison block per
non-default case wired head-to-case-to-target, removes the head's direct
shortcut edges to those targets, wires the default case's edge, and
deletes the placeholder statement from the head block. -/
theorem c9_collapse_restore_roundtrip :
    applyOneChain ladderGraph 64 ladderChain [] =
      some (c9Collapsed, c9NewHead, c9CaseAddrs) ∧
    restoreGraph c9Collapsed c9NewHead c9CaseAddrs 10 = some c9Restored ∧
    reachableTargets c9CaseAddrs ladderGraph ladderBlockA 10 =
      [1000, 1010, 1020, 1030] ∧
    reachableTargets c9CaseAddrs c9Restored c9FinalHead 10 =
      [1000, 1010, 1020, 1030] ∧
    (c9FinalHead, ladderBlockA) ∈ c9Restored.edges ∧
    (ladderBlockA, ladderT1) ∈ c9Restored.edges ∧
    (ladderBlockA, ladderBlockB) ∈ c9Restored.edges ∧
    (ladderBlockB, ladderT2) ∈ c9Restored.edges ∧
    (ladderBlockB, ladderBlockC) ∈ c9Restored.edges ∧
    (ladderBlockC, ladderT3) ∈ c9Restored.edges ∧
    (c9FinalHead, ladderT1) ∉ c9Restored.edges ∧
    (c9FinalHead, ladderT2) ∉ c9Restored.edges ∧
    (c9FinalHead, ladderT3) ∉ c9Restored.edges ∧
    (c9FinalHead, ladderD) ∉ c9Restored.edges ∧
    (ladderBlockC, ladderD) ∈ c9Restored.edges ∧
    Stmt.switchHead ∉ c9FinalHead.statements := by
  refine ⟨rfl, rfl, rfl, rfl, ?_⟩
  decide

end LoweredSwitchSimplifier

end Angr
